import Mathlib

/-!
Verification of the `j5_interface` example node
(`src/j5_interface/src/j5_interface.cpp`).

The numeric-parse primitive `std::stof` is modelled in two layers.

The rational layer (`stof : String → Option ℚ`) covers the decimal grammar
of `strtof`: optional leading whitespace, optional sign, a digit sequence
with an optional fractional part (at least one digit in total), and an
optional exponent part; the longest valid prefix is converted and the
remainder of the string is ignored; out-of-float-range values make the
parse fail, matching the `std::out_of_range` exception of `std::stof`.
The claims that classify inputs by their parse outcome (valid numeric,
non-numeric/empty/overflowing, numeric prefix with trailing characters)
are settled over this layer.

The C-float layer (`stofC : String → Option CFloat`, value domain
`CFloat` = NaN, ±infinity, or a finite rational) additionally covers the
`inf`/`infinity`/`nan` spellings and the hexadecimal forms that `strtof`
converts, glibc's range failure on subnormal results, and the C++
`std::max`/`std::min` comparison semantics in which NaN is unordered.
The unconditional boundedness claim is settled over this layer, where the
NaN conversion that defeats the clamp is visible.
-/

namespace J5

/-- default forward linear velocity command in m/s (line 65). -/
def DefaultVelocityCmd : ℚ := 0

/-- default angular velocity command in rad/s (line 68). -/
def DefaultTurnRateCmd : ℚ := 0

/-- the rate at which the component publishes commands, Hz (line 71). -/
def LoopRate : ℕ := 10

/-- input value limit for the linear velocity (line 75). -/
def MaxVelocityCommand : ℚ := 3

/-- input value limit for the turn rate (line 76). -/
def MaxTurnRateCommand : ℚ := 1

/-- Largest finite value of the C `float` type, `(2 - 2^-23) * 2^127`. -/
def FloatMax : ℚ := 2 ^ 128 - 2 ^ 104

/-- Whitespace characters skipped by `strtof` (the `isspace` set). -/
def isSpaceChar (c : Char) : Bool :=
  c = ' ' || c = '\t' || c = '\n' || c = '\x0b' || c = '\x0c' || c = '\r'

/-- Value of a decimal digit character. -/
def digVal (c : Char) : ℕ := c.toNat - 48

/-- Natural number denoted by a list of decimal digit characters. -/
def digitsToNat (ds : List Char) : ℕ :=
  ds.foldl (fun acc c => 10 * acc + digVal c) 0

/-- Parse an optional exponent part (`e`/`E`, optional sign, digits) at the
head of `cs`.  If no well-formed exponent is present nothing is consumed,
matching the longest-valid-prefix rule of `strtof`. -/
def parseExp (cs : List Char) : ℤ × List Char :=
  match cs with
  | c :: rest =>
    if c = 'e' ∨ c = 'E' then
      match rest with
      | s :: rest2 =>
        if s = '+' then
          let ds := rest2.takeWhile Char.isDigit
          if ds = [] then (0, cs)
          else ((digitsToNat ds : ℤ), rest2.dropWhile Char.isDigit)
        else if s = '-' then
          let ds := rest2.takeWhile Char.isDigit
          if ds = [] then (0, cs)
          else (-(digitsToNat ds : ℤ), rest2.dropWhile Char.isDigit)
        else
          let ds := rest.takeWhile Char.isDigit
          if ds = [] then (0, cs)
          else ((digitsToNat ds : ℤ), rest.dropWhile Char.isDigit)
      | [] => (0, cs)
    else (0, cs)
  | [] => (0, cs)

/-- Scale a mantissa by a power of ten. -/
def applyExp (m : ℚ) (e : ℤ) : ℚ :=
  if 0 ≤ e then m * (10 : ℚ) ^ e.toNat else m / (10 : ℚ) ^ (-e).toNat

/-- Syntactic decomposition of the longest valid numeric prefix of a
character list: sign, integral digits, fractional digits, exponent, and the
unconsumed remainder. -/
structure FloatScan where
  neg : Bool
  intDs : List Char
  fracDs : List Char
  exp : ℤ
  rest : List Char
deriving DecidableEq, Repr

/-- The lexical phase of `strtof`: skip whitespace, read an optional sign,
an integral digit sequence, an optional fractional part, and an optional
exponent part; fail when no digit is present (no conversion). -/
def scanFloat (cs : List Char) : Option FloatScan :=
  let cs1 := cs.dropWhile isSpaceChar
  let sp : Bool × List Char :=
    match cs1 with
    | '-' :: r => (true, r)
    | '+' :: r => (false, r)
    | _ => (false, cs1)
  let cs2 := sp.2
  let intDs := cs2.takeWhile Char.isDigit
  let cs3 := cs2.dropWhile Char.isDigit
  let fp : List Char × List Char :=
    match cs3 with
    | '.' :: r => (r.takeWhile Char.isDigit, r.dropWhile Char.isDigit)
    | _ => ([], cs3)
  if intDs = [] ∧ fp.1 = [] then none
  else
    let ep := parseExp fp.2
    some ⟨sp.1, intDs, fp.1, ep.1, ep.2⟩

/-- Numeric value denoted by a scanned float:
`±(intPart + fracPart / 10^fracLen) * 10^exp`. -/
def floatVal (f : FloatScan) : ℚ :=
  (if f.neg then -1 else 1) *
    applyExp ((digitsToNat f.intDs : ℚ) +
      (digitsToNat f.fracDs : ℚ) / (10 : ℚ) ^ f.fracDs.length) f.exp

/-- The conversion performed by `strtof` on a character list, restricted to
the decimal grammar: returns the value of the longest valid numeric prefix
together with the unconsumed remainder, or `none` when no conversion can be
performed. -/
def strtofNum (cs : List Char) : Option (ℚ × List Char) :=
  (scanFloat cs).map (fun f => (floatVal f, f.rest))

/-- Model of `std::stof` (line 113 / line 128): convert the longest valid
numeric prefix, failing (exception in the source) when there is no
conversion or the value is outside the range of `float`. -/
def stof (s : String) : Option ℚ :=
  match strtofNum s.data with
  | none => none
  | some (v, _) =>
    if v < -FloatMax ∨ FloatMax < v then none else some v

/-- The two fields of `geometry_msgs::Twist` that the node sets
(lines 100-107): `linear.x` and `angular.z`; all other fields are ignored. -/
structure Twist where
  linear_x : ℚ
  angular_z : ℚ
deriving DecidableEq, Repr

/-- The two-step bound of lines 114-115 / 129-130:
`v = max(v, lo); v = min(v, hi)`. -/
def clampCmd (lo hi v : ℚ) : ℚ := min (max v lo) hi

/-- `getCommandMsg` (lines 96-140): build the command message from the
argument list.  Defaults are installed first; if `args.size() > 1` then
`args[1]` is parsed and clamped into `linear.x`, with a parse failure
falling back to the default; symmetrically for `args[2]` and `angular.z`. -/
def getCommandMsg (args : List String) : Twist :=
  { linear_x :=
      if h : 1 < args.length then
        match stof (args.get ⟨1, h⟩) with
        | some v => clampCmd (-MaxVelocityCommand) MaxVelocityCommand v
        | none => DefaultVelocityCmd
      else DefaultVelocityCmd
    angular_z :=
      if h : 2 < args.length then
        match stof (args.get ⟨2, h⟩) with
        | some v => clampCmd (-MaxTurnRateCommand) MaxTurnRateCommand v
        | none => DefaultTurnRateCmd
      else DefaultTurnRateCmd }

/-- The fields of `j5_msgs::j5StatusMsg` read by the node (line 88). -/
structure J5StatusMsg where
  externalControl : Bool
  fault : Bool
  contactors : Bool
  voltage : ℚ
deriving DecidableEq, Repr

/-- Log lines the node emits: the publish-loop line (line 186) and the
status-callback line (line 88). -/
inductive LogEvent where
  | sendCmd (lin ang : ℚ)
  | rcvStatus (externalControl fault contactors : Bool) (voltage : ℚ)
deriving DecidableEq, Repr

/-- `statusMsgHandler` (lines 86-89): the callback's entire body is one
unconditional log statement of the received message's fields. -/
def statusMsgHandler (m : J5StatusMsg) : LogEvent :=
  LogEvent.rcvStatus m.externalControl m.fault m.contactors m.voltage

/-- Observable state of the running node: the command message computed at
startup (line 179), the log emitted so far, and the commands published so
far (line 187). -/
structure NodeState where
  cmdMsg : Twist
  log : List LogEvent
  published : List Twist
deriving DecidableEq, Repr

/-- Events delivered to the node while `ros::ok()` holds: one iteration of
the publish loop (lines 183-189), or the asynchronous delivery of a status
message to `statusMsgHandler`. -/
inductive Event where
  | tick
  | status (m : J5StatusMsg)
deriving DecidableEq, Repr

/-- One step of the running node.  A `tick` logs and publishes the stored
command (lines 186-187) and changes nothing else; a `status` event runs
`statusMsgHandler`, which only appends its single log line. -/
def step (s : NodeState) (e : Event) : NodeState :=
  match e with
  | Event.tick =>
    { s with
      log := s.log ++ [LogEvent.sendCmd s.cmdMsg.linear_x s.cmdMsg.angular_z]
      published := s.published ++ [s.cmdMsg] }
  | Event.status m =>
    { s with log := s.log ++ [statusMsgHandler m] }

/-- State after startup (line 179): the command is computed once from the
arguments; nothing has been logged or published. -/
def initState (args : List String) : NodeState :=
  { cmdMsg := getCommandMsg args, log := [], published := [] }

/-- The run of the node on a finite schedule of events. -/
def run (args : List String) (es : List Event) : NodeState :=
  es.foldl step (initState args)

/-- The `linear.x` branch of `getCommandMsg`, as a function of the optional
argument at index 1. -/
def linFromOpt (o : Option String) : ℚ :=
  match o with
  | some s =>
    match stof s with
    | some v => clampCmd (-MaxVelocityCommand) MaxVelocityCommand v
    | none => DefaultVelocityCmd
  | none => DefaultVelocityCmd

/-- The `angular.z` branch of `getCommandMsg`, as a function of the optional
argument at index 2. -/
def angFromOpt (o : Option String) : ℚ :=
  match o with
  | some s =>
    match stof s with
    | some v => clampCmd (-MaxTurnRateCommand) MaxTurnRateCommand v
    | none => DefaultTurnRateCmd
  | none => DefaultTurnRateCmd

/-- A C `float` value as far as this program can observe it: NaN, a signed
infinity, or a finite value (modelled as a rational). -/
inductive CFloat where
  | nan
  | inf (neg : Bool)
  | fin (val : ℚ)
deriving DecidableEq, Repr

/-- The C `<` comparison on float values: false whenever either side is
NaN, otherwise the extended-real order. -/
def cfLt : CFloat → CFloat → Bool
  | CFloat.nan, _ => false
  | _, CFloat.nan => false
  | CFloat.inf true, CFloat.inf true => false
  | CFloat.inf true, _ => true
  | _, CFloat.inf true => false
  | CFloat.inf false, _ => false
  | _, CFloat.inf false => true
  | CFloat.fin a, CFloat.fin b => decide (a < b)

/-- The C `<=` comparison on float values: false whenever either side is
NaN, otherwise the extended-real order. -/
def cfLe : CFloat → CFloat → Bool
  | CFloat.nan, _ => false
  | _, CFloat.nan => false
  | CFloat.inf true, _ => true
  | _, CFloat.inf true => false
  | _, CFloat.inf false => true
  | CFloat.inf false, _ => false
  | CFloat.fin a, CFloat.fin b => decide (a ≤ b)

/-- `fabs` on float values: NaN stays NaN, infinities become `+inf`. -/
def cfAbs : CFloat → CFloat
  | CFloat.nan => CFloat.nan
  | CFloat.inf _ => CFloat.inf false
  | CFloat.fin q => CFloat.fin |q|

/-- `std::max(a, b)`, literally `(a < b) ? b : a`: returns the FIRST
argument when the comparison is false, so `max(NaN, c) = NaN`. -/
def cppMax (a b : CFloat) : CFloat := if cfLt a b then b else a

/-- `std::min(a, b)`, literally `(b < a) ? b : a`: returns the FIRST
argument when the comparison is false, so `min(NaN, c) = NaN`. -/
def cppMin (a b : CFloat) : CFloat := if cfLt b a then b else a

/-- Case-insensitive match of a (lowercase) pattern against the head of a
character list; returns the remainder on success. -/
def matchCI : List Char → List Char → Option (List Char)
  | [], cs => some cs
  | _ :: _, [] => none
  | p :: ps, c :: cs => if c.toLower = p then matchCI ps cs else none

/-- Characters the `nan(n-char-sequence)` form admits between the
parentheses: alphanumerics and underscore. -/
def isNanSeqChar (c : Char) : Bool := c.isAlphanum || c = '_'

/-- After the `nan` keyword, `strtof` optionally consumes a parenthesised
character sequence; with no closing parenthesis nothing more is consumed. -/
def nanSeqRest (cs : List Char) : List Char :=
  match cs with
  | '(' :: r =>
    match r.dropWhile isNanSeqChar with
    | ')' :: r2 => r2
    | _ => cs
  | _ => cs

/-- Hexadecimal digit test for the `0x` forms of `strtof`. -/
def isHexDigitChar (c : Char) : Bool :=
  c.isDigit || (97 ≤ c.toLower.toNat && c.toLower.toNat ≤ 102)

/-- Value of a hexadecimal digit character. -/
def hexVal (c : Char) : ℕ := if c.isDigit then c.toNat - 48 else c.toLower.toNat - 87

/-- Natural number denoted by a list of hexadecimal digit characters. -/
def hexToNat (ds : List Char) : ℕ :=
  ds.foldl (fun acc c => 16 * acc + hexVal c) 0

/-- Parse an optional binary-exponent part (`p`/`P`, optional sign, decimal
digits) at the head of `cs`, mirroring `parseExp`; if no well-formed
exponent is present nothing is consumed. -/
def parseExpP (cs : List Char) : ℤ × List Char :=
  match cs with
  | c :: rest =>
    if c = 'p' ∨ c = 'P' then
      match rest with
      | s :: rest2 =>
        if s = '+' then
          let ds := rest2.takeWhile Char.isDigit
          if ds = [] then (0, cs)
          else ((digitsToNat ds : ℤ), rest2.dropWhile Char.isDigit)
        else if s = '-' then
          let ds := rest2.takeWhile Char.isDigit
          if ds = [] then (0, cs)
          else (-(digitsToNat ds : ℤ), rest2.dropWhile Char.isDigit)
        else
          let ds := rest.takeWhile Char.isDigit
          if ds = [] then (0, cs)
          else ((digitsToNat ds : ℤ), rest.dropWhile Char.isDigit)
      | [] => (0, cs)
    else (0, cs)
  | [] => (0, cs)

/-- Scale a mantissa by a power of two (hexadecimal floats carry a binary
exponent). -/
def applyExp2 (m : ℚ) (e : ℤ) : ℚ :=
  if 0 ≤ e then m * (2 : ℚ) ^ e.toNat else m / (2 : ℚ) ^ (-e).toNat

/-- Numeric value of a scanned hexadecimal float:
`±(hexInt + hexFrac / 16^fracLen) * 2^exp`. -/
def hexFloatVal (neg : Bool) (intDs fracDs : List Char) (e : ℤ) : ℚ :=
  (if neg then -1 else 1) *
    applyExp2 ((hexToNat intDs : ℚ) + (hexToNat fracDs : ℚ) / (16 : ℚ) ^ fracDs.length) e

/-- The decimal tail of the `strtof` scan, after whitespace and sign:
digit sequence with an optional fractional part (at least one digit in
total) and an optional decimal exponent. -/
def decCore (neg : Bool) (cs2 : List Char) : Option (CFloat × List Char) :=
  let intDs := cs2.takeWhile Char.isDigit
  let cs3 := cs2.dropWhile Char.isDigit
  let fp : List Char × List Char :=
    match cs3 with
    | '.' :: r => (r.takeWhile Char.isDigit, r.dropWhile Char.isDigit)
    | _ => ([], cs3)
  if intDs = [] ∧ fp.1 = [] then none
  else
    let ep := parseExp fp.2
    some (CFloat.fin (floatVal ⟨neg, intDs, fp.1, ep.1, ep.2⟩), ep.2)

/-- The hexadecimal tail of the `strtof` scan, after `0x`/`0X`: nonempty
hexadecimal digits optionally containing a period, then an optional binary
exponent; fails when no hexadecimal digit is present. -/
def hexCore (neg : Bool) (cs2 : List Char) : Option (CFloat × List Char) :=
  let intDs := cs2.takeWhile isHexDigitChar
  let cs3 := cs2.dropWhile isHexDigitChar
  let fp : List Char × List Char :=
    match cs3 with
    | '.' :: r => (r.takeWhile isHexDigitChar, r.dropWhile isHexDigitChar)
    | _ => ([], cs3)
  if intDs = [] ∧ fp.1 = [] then none
  else
    let ep := parseExpP fp.2
    some (CFloat.fin (hexFloatVal neg intDs fp.1 ep.1), ep.2)

/-- The full `strtof` conversion on a character list: whitespace, sign,
then `infinity`/`inf`/`nan` (case-insensitive), a hexadecimal `0x` form,
or the decimal form; `0x` with no hexadecimal digit falls back to the
decimal scan of the leading `0` (subject sequence `"0"`, remainder from
the `x`). -/
def scanCFloat (cs : List Char) : Option (CFloat × List Char) :=
  let cs1 := cs.dropWhile isSpaceChar
  let sp : Bool × List Char :=
    match cs1 with
    | '-' :: r => (true, r)
    | '+' :: r => (false, r)
    | _ => (false, cs1)
  match matchCI ['i', 'n', 'f', 'i', 'n', 'i', 't', 'y'] sp.2 with
  | some rest => some (CFloat.inf sp.1, rest)
  | none =>
    match matchCI ['i', 'n', 'f'] sp.2 with
    | some rest => some (CFloat.inf sp.1, rest)
    | none =>
      match matchCI ['n', 'a', 'n'] sp.2 with
      | some rest => some (CFloat.nan, nanSeqRest rest)
      | none =>
        match sp.2 with
        | '0' :: x :: r =>
          if x = 'x' ∨ x = 'X' then
            match hexCore sp.1 r with
            | some v => some v
            | none => decCore sp.1 sp.2
          else decCore sp.1 sp.2
        | _ => decCore sp.1 sp.2

/-- Smallest positive normalized `float`, `2^-126`: below it (in
magnitude) glibc's `strtof` reports the subnormal result through `ERANGE`,
which `std::stof` turns into `std::out_of_range`.  (Exactly representable
binary subnormals raise no underflow on some platforms; decimal inputs in
this range are inexact and do fail on the program's glibc target.) -/
def FloatMinNormal : ℚ := 1 / 2 ^ 126

/-- Model of `std::stof` over the full `strtof` grammar: NaN and the
infinities convert without an exception; finite values outside the float
range (overflow) or inside the subnormal range (underflow, nonzero) raise
`std::out_of_range`, i.e. fail. -/
def stofC (s : String) : Option CFloat :=
  match scanCFloat s.data with
  | none => none
  | some (CFloat.fin v, _) =>
    if v < -FloatMax ∨ FloatMax < v then none
    else if v ≠ 0 ∧ -FloatMinNormal < v ∧ v < FloatMinNormal then none
    else some (CFloat.fin v)
  | some (f, _) => some f

/-- The two fields of `geometry_msgs::Twist` that the node sets, over the
C-float value domain. -/
structure TwistC where
  linear_x : CFloat
  angular_z : CFloat
deriving DecidableEq, Repr

/-- `getCommandMsg` (lines 96-140) over the C-float domain: identical
structure to `getCommandMsg`, with `std::stof` as `stofC` and the
lines 114-115 / 129-130 bounds as the literal `std::max`/`std::min`
comparisons, which pass NaN through. -/
def getCommandMsgC (args : List String) : TwistC :=
  { linear_x :=
      if h : 1 < args.length then
        match stofC (args.get ⟨1, h⟩) with
        | some v =>
          cppMin (cppMax v (CFloat.fin (-MaxVelocityCommand))) (CFloat.fin MaxVelocityCommand)
        | none => CFloat.fin DefaultVelocityCmd
      else CFloat.fin DefaultVelocityCmd
    angular_z :=
      if h : 2 < args.length then
        match stofC (args.get ⟨2, h⟩) with
        | some v =>
          cppMin (cppMax v (CFloat.fin (-MaxTurnRateCommand))) (CFloat.fin MaxTurnRateCommand)
        | none => CFloat.fin DefaultTurnRateCmd
      else CFloat.fin DefaultTurnRateCmd }

/-- The `linear.x` branch of `getCommandMsgC`, as a function of the
optional argument at index 1. -/
def linCFromOpt (o : Option String) : CFloat :=
  match o with
  | some s =>
    match stofC s with
    | some v =>
      cppMin (cppMax v (CFloat.fin (-MaxVelocityCommand))) (CFloat.fin MaxVelocityCommand)
    | none => CFloat.fin DefaultVelocityCmd
  | none => CFloat.fin DefaultVelocityCmd

/-- The `angular.z` branch of `getCommandMsgC`, as a function of the
optional argument at index 2. -/
def angCFromOpt (o : Option String) : CFloat :=
  match o with
  | some s =>
    match stofC s with
    | some v =>
      cppMin (cppMax v (CFloat.fin (-MaxTurnRateCommand))) (CFloat.fin MaxTurnRateCommand)
    | none => CFloat.fin DefaultTurnRateCmd
  | none => CFloat.fin DefaultTurnRateCmd

/-- `getCommandMsg` factors through the optional lookups at indices 1
and 2. -/
theorem getCommandMsg_eq_opts (args : List String) :
    getCommandMsg args = ⟨linFromOpt (args.get? 1), angFromOpt (args.get? 2)⟩ := by
  unfold getCommandMsg linFromOpt angFromOpt
  congr 1
  · by_cases h : 1 < args.length
    · rw [dif_pos h, List.get?_eq_get h]
    · rw [dif_neg h, List.get?_eq_none.mpr (le_of_not_lt h)]
  · by_cases h : 2 < args.length
    · rw [dif_pos h, List.get?_eq_get h]
    · rw [dif_neg h, List.get?_eq_none.mpr (le_of_not_lt h)]

/-- The two-step max/min bound keeps the value within `[-hi, hi]`. -/
theorem abs_clampCmd_le (hi v : ℚ) (h : 0 ≤ hi) : |clampCmd (-hi) hi v| ≤ hi := by
  rw [abs_le]
  exact ⟨le_min (le_max_right v (-hi)) (neg_le_self h), min_le_right _ _⟩

/-- The two-step max/min bound is idempotent when `lo ≤ hi`. -/
theorem clampCmd_idem_of_le (lo hi v : ℚ) (h : lo ≤ hi) :
    clampCmd lo hi (clampCmd lo hi v) = clampCmd lo hi v := by
  unfold clampCmd
  rw [max_eq_left (le_min (le_max_right v lo) h),
    min_eq_left (min_le_right (max v lo) hi)]

/-- Each step of the run preserves `cmdMsg` and only ever appends `cmdMsg`
itself to the published list. -/
theorem foldl_step_frame (es : List Event) (s : NodeState) :
    ((es.foldl step s).cmdMsg = s.cmdMsg) ∧
    (∀ t ∈ (es.foldl step s).published, t ∈ s.published ∨ t = s.cmdMsg) := by
  induction es generalizing s with
  | nil => exact ⟨rfl, fun t ht => Or.inl ht⟩
  | cons e rest ih =>
    have step_cmd : (step s e).cmdMsg = s.cmdMsg := by cases e <;> rfl
    have step_pub : ∀ t ∈ (step s e).published, t ∈ s.published ∨ t = s.cmdMsg := by
      cases e with
      | tick =>
        intro t ht
        rcases List.mem_append.mp ht with h | h
        · exact Or.inl h
        · exact Or.inr (List.mem_singleton.mp h)
      | status m => exact fun t ht => Or.inl ht
    rw [List.foldl_cons]
    refine ⟨by rw [(ih (step s e)).1, step_cmd], fun t ht => ?_⟩
    rcases (ih (step s e)).2 t ht with h | h
    · exact step_pub t h
    · rw [step_cmd] at h
      exact Or.inr h

/-- C1: when the argument at index 1 parses to `v`, the built command's
`linear.x` is `v` clamped to `[-MaxVelocityCommand, MaxVelocityCommand]`;
symmetrically, when index 2 parses to `w`, `angular.z` is `w` clamped to
`[-MaxTurnRateCommand, MaxTurnRateCommand]`. -/
theorem getCommandMsg_clamps_parsed (args : List String) :
    (∀ s v, args.get? 1 = some s → stof s = some v →
      (getCommandMsg args).linear_x =
        clampCmd (-MaxVelocityCommand) MaxVelocityCommand v) ∧
    (∀ s v, args.get? 2 = some s → stof s = some v →
      (getCommandMsg args).angular_z =
        clampCmd (-MaxTurnRateCommand) MaxTurnRateCommand v) := by
  constructor
  · intro s v hs hv
    rw [getCommandMsg_eq_opts, hs]
    simp [linFromOpt, hv]
  · intro s v hs hv
    rw [getCommandMsg_eq_opts, hs]
    simp [angFromOpt, hv]

theorem getCommandMsg_clamps_parsed_witness :
    (getCommandMsg ["p", "10.0", "0.3"]).linear_x =
      clampCmd (-MaxVelocityCommand) MaxVelocityCommand 10 ∧
    (getCommandMsg ["p", "10.0", "0.3"]).angular_z =
      clampCmd (-MaxTurnRateCommand) MaxTurnRateCommand (3 / 10) :=
  ⟨(getCommandMsg_clamps_parsed ["p", "10.0", "0.3"]).1 "10.0" 10 rfl (by
      have h : scanFloat "10.0".data = some ⟨false, ['1', '0'], ['0'], 0, []⟩ := by
        decide
      simp only [stof, strtofNum, h, Option.map_some, floatVal, applyExp]
      norm_num [FloatMax, show digitsToNat ['1', '0'] = 10 from rfl,
        show digitsToNat ['0'] = 0 from rfl]),
   (getCommandMsg_clamps_parsed ["p", "10.0", "0.3"]).2 "0.3" (3 / 10) rfl (by
      have h : scanFloat "0.3".data = some ⟨false, ['0'], ['3'], 0, []⟩ := by
        decide
      simp only [stof, strtofNum, h, Option.map_some, floatVal, applyExp]
      norm_num [FloatMax, show digitsToNat ['0'] = 0 from rfl,
        show digitsToNat ['3'] = 3 from rfl])⟩

/-- `getCommandMsgC` factors through the optional lookups at indices 1
and 2. -/
theorem getCommandMsgC_eq_opts (args : List String) :
    getCommandMsgC args = ⟨linCFromOpt (args.get? 1), angCFromOpt (args.get? 2)⟩ := by
  unfold getCommandMsgC linCFromOpt angCFromOpt
  congr 1
  · by_cases h : 1 < args.length
    · rw [dif_pos h, List.get?_eq_get h]
    · rw [dif_neg h, List.get?_eq_none.mpr (le_of_not_lt h)]
  · by_cases h : 2 < args.length
    · rw [dif_pos h, List.get?_eq_get h]
    · rw [dif_neg h, List.get?_eq_none.mpr (le_of_not_lt h)]

/-- The lines 114-115 `std::max`/`std::min` pair maps a NaN input to NaN
and any other input to a finite value of magnitude at most `b`. -/
theorem cppClamp_nan_or_bounded (b : ℚ) (hb : 0 ≤ b) (v : CFloat) :
    cppMin (cppMax v (CFloat.fin (-b))) (CFloat.fin b) = CFloat.nan ∨
    cfLe (cfAbs (cppMin (cppMax v (CFloat.fin (-b))) (CFloat.fin b)))
      (CFloat.fin b) = true := by
  cases v with
  | nan => exact Or.inl rfl
  | inf neg =>
    cases neg with
    | false =>
      right
      simp [cppMax, cppMin, cfLt, cfAbs, cfLe, abs_of_nonneg hb]
    | true =>
      right
      have hnot : ¬b < -b := not_lt.mpr (neg_le_self hb)
      simp [cppMax, cppMin, cfLt, cfAbs, cfLe, hnot, abs_of_nonneg hb]
  | fin q =>
    right
    have hmax : cppMax (CFloat.fin q) (CFloat.fin (-b)) = CFloat.fin (max q (-b)) := by
      by_cases h : q < -b
      · simp [cppMax, cfLt, h, max_eq_right (le_of_lt h)]
      · simp [cppMax, cfLt, h, max_eq_left (le_of_not_lt h)]
    have hmin : cppMin (CFloat.fin (max q (-b))) (CFloat.fin b) =
        CFloat.fin (clampCmd (-b) b q) := by
      unfold clampCmd
      by_cases h : b < max q (-b)
      · simp [cppMin, cfLt, h, min_eq_right (le_of_lt h)]
      · simp [cppMin, cfLt, h, min_eq_left (le_of_not_lt h)]
    rw [hmax, hmin]
    simp only [cfAbs, cfLe, decide_eq_true_eq]
    exact abs_clampCmd_le b q hb

/-- The `linear.x` branch over C floats is NaN or within the bound. -/
theorem linCFromOpt_nan_or_bounded (o : Option String) :
    linCFromOpt o = CFloat.nan ∨
    cfLe (cfAbs (linCFromOpt o)) (CFloat.fin MaxVelocityCommand) = true := by
  rcases o with _ | s
  · right
    simp only [linCFromOpt, cfAbs, cfLe, decide_eq_true_eq]
    norm_num [DefaultVelocityCmd, MaxVelocityCommand]
  · rcases hst : stofC s with _ | v
    · right
      simp only [linCFromOpt, hst, cfAbs, cfLe, decide_eq_true_eq]
      norm_num [DefaultVelocityCmd, MaxVelocityCommand]
    · have he : linCFromOpt (some s) =
          cppMin (cppMax v (CFloat.fin (-MaxVelocityCommand)))
            (CFloat.fin MaxVelocityCommand) := by
        simp [linCFromOpt, hst]
      rw [he]
      exact cppClamp_nan_or_bounded MaxVelocityCommand
        (by norm_num [MaxVelocityCommand]) v

/-- The `angular.z` branch over C floats is NaN or within the bound. -/
theorem angCFromOpt_nan_or_bounded (o : Option String) :
    angCFromOpt o = CFloat.nan ∨
    cfLe (cfAbs (angCFromOpt o)) (CFloat.fin MaxTurnRateCommand) = true := by
  rcases o with _ | s
  · right
    simp only [angCFromOpt, cfAbs, cfLe, decide_eq_true_eq]
    norm_num [DefaultTurnRateCmd, MaxTurnRateCommand]
  · rcases hst : stofC s with _ | v
    · right
      simp only [angCFromOpt, hst, cfAbs, cfLe, decide_eq_true_eq]
      norm_num [DefaultTurnRateCmd, MaxTurnRateCommand]
    · have he : angCFromOpt (some s) =
          cppMin (cppMax v (CFloat.fin (-MaxTurnRateCommand)))
            (CFloat.fin MaxTurnRateCommand) := by
        simp [angCFromOpt, hst]
      rw [he]
      exact cppClamp_nan_or_bounded MaxTurnRateCommand
        (by norm_num [MaxTurnRateCommand]) v

/-- C2 counterexample: `std::stof("nan")` converts to NaN without an
exception, NaN survives the `std::max`/`std::min` pair of lines 114-115
(both comparisons are false), so the command built from
`["prog", "nan"]` has a NaN `linear.x` and the claimed
`|linear.x| ≤ MaxVelocityCommand` is false there. -/
theorem getCommandMsgC_nan_counterexample :
    (getCommandMsgC ["prog", "nan"]).linear_x = CFloat.nan ∧
    cfLe (cfAbs (getCommandMsgC ["prog", "nan"]).linear_x)
      (CFloat.fin MaxVelocityCommand) = false :=
  ⟨rfl, rfl⟩

/-- C2 (amended): every built command's `linear.x` is NaN or has magnitude
at most `MaxVelocityCommand` (3.0), and its `angular.z` is NaN or has
magnitude at most `MaxTurnRateCommand` (1.0); NaN arises only from a NaN
conversion, never from the clamp. -/
theorem getCommandMsgC_bounded_or_nan (args : List String) :
    ((getCommandMsgC args).linear_x = CFloat.nan ∨
      cfLe (cfAbs (getCommandMsgC args).linear_x)
        (CFloat.fin MaxVelocityCommand) = true) ∧
    ((getCommandMsgC args).angular_z = CFloat.nan ∨
      cfLe (cfAbs (getCommandMsgC args).angular_z)
        (CFloat.fin MaxTurnRateCommand) = true) := by
  rw [getCommandMsgC_eq_opts]
  exact ⟨linCFromOpt_nan_or_bounded (args.get? 1),
    angCFromOpt_nan_or_bounded (args.get? 2)⟩

/-- C3: when the argument at index 1 (resp. 2) fails to parse — non-numeric,
empty, or out of float range — the corresponding field falls back to the
default 0.0; the failure is absorbed, the function still returns a command. -/
theorem getCommandMsg_default_on_parse_failure (args : List String) :
    (∀ s, args.get? 1 = some s → stof s = none →
      (getCommandMsg args).linear_x = DefaultVelocityCmd) ∧
    (∀ s, args.get? 2 = some s → stof s = none →
      (getCommandMsg args).angular_z = DefaultTurnRateCmd) := by
  constructor
  · intro s hs hv
    rw [getCommandMsg_eq_opts, hs]
    simp [linFromOpt, hv]
  · intro s hs hv
    rw [getCommandMsg_eq_opts, hs]
    simp [angFromOpt, hv]

theorem getCommandMsg_default_on_parse_failure_witness :
    (getCommandMsg ["p", "abc", ""]).linear_x = DefaultVelocityCmd ∧
    (getCommandMsg ["p", "abc", ""]).angular_z = DefaultTurnRateCmd :=
  ⟨(getCommandMsg_default_on_parse_failure ["p", "abc", ""]).1 "abc" rfl rfl,
   (getCommandMsg_default_on_parse_failure ["p", "abc", ""]).2 "" rfl rfl⟩

/-- C4: fewer than 2 arguments yields the all-default command; with exactly
2 arguments only `linear.x` is parsed and `angular.z` keeps its default. -/
theorem getCommandMsg_short_args (args : List String) :
    (args.length < 2 →
      getCommandMsg args = ⟨DefaultVelocityCmd, DefaultTurnRateCmd⟩) ∧
    (args.length = 2 → (getCommandMsg args).angular_z = DefaultTurnRateCmd) := by
  constructor
  · intro h
    have h1 : args.get? 1 = none := List.get?_eq_none.mpr (by omega)
    have h2 : args.get? 2 = none := List.get?_eq_none.mpr (by omega)
    rw [getCommandMsg_eq_opts, h1, h2]
    rfl
  · intro h
    have h2 : args.get? 2 = none := List.get?_eq_none.mpr (by omega)
    rw [getCommandMsg_eq_opts, h2]
    rfl

theorem getCommandMsg_short_args_witness :
    ([] : List String).length < 2 ∧
    getCommandMsg [] = ⟨DefaultVelocityCmd, DefaultTurnRateCmd⟩ ∧
    (["p", "1.0"] : List String).length = 2 ∧
    (getCommandMsg ["p", "1.0"]).angular_z = DefaultTurnRateCmd :=
  ⟨by decide, (getCommandMsg_short_args []).1 (by decide),
   by decide, (getCommandMsg_short_args ["p", "1.0"]).2 rfl⟩

/-- C5: `getCommandMsg` is a total deterministic function of the argument
list: every input, valid or not, yields a command, and equal inputs yield
equal commands. -/
theorem getCommandMsg_total_deterministic (args : List String) :
    (∃ c : Twist, getCommandMsg args = c) ∧
    (∀ args2 : List String, args = args2 →
      getCommandMsg args = getCommandMsg args2) :=
  ⟨⟨getCommandMsg args, rfl⟩, fun _ h => by rw [h]⟩

theorem getCommandMsg_total_deterministic_witness :
    (∃ c : Twist, getCommandMsg ["p", "abc"] = c) ∧
    getCommandMsg ["p", "abc"] = getCommandMsg ["p", "abc"] :=
  ⟨(getCommandMsg_total_deterministic ["p", "abc"]).1,
   (getCommandMsg_total_deterministic ["p", "abc"]).2 ["p", "abc"] rfl⟩

/-- C6: the built command depends only on the arguments at indices 1 and 2:
two argument lists agreeing there (present or absent alike) yield equal
commands; index 0 and entries beyond index 2 are ignored. -/
theorem getCommandMsg_ignores_other_args (a b : List String)
    (h1 : a.get? 1 = b.get? 1) (h2 : a.get? 2 = b.get? 2) :
    getCommandMsg a = getCommandMsg b := by
  rw [getCommandMsg_eq_opts, getCommandMsg_eq_opts, h1, h2]

theorem getCommandMsg_ignores_other_args_witness :
    getCommandMsg ["progA", "2.5", "0.3", "junk"] =
      getCommandMsg ["progB", "2.5", "0.3"] :=
  getCommandMsg_ignores_other_args ["progA", "2.5", "0.3", "junk"]
    ["progB", "2.5", "0.3"] rfl rfl

/-- C7: delivering a status message to the running node appends exactly one
log line — the `statusMsgHandler` line for that message, a function of the
message alone — and leaves the command and the published list unchanged. -/
theorem statusMsgHandler_logs_once_frame (s : NodeState) (m : J5StatusMsg) :
    (step s (Event.status m)).log =
      s.log ++ [LogEvent.rcvStatus m.externalControl m.fault m.contactors m.voltage] ∧
    (step s (Event.status m)).cmdMsg = s.cmdMsg ∧
    (step s (Event.status m)).published = s.published :=
  ⟨rfl, rfl, rfl⟩

/-- C8: over any schedule of loop iterations and status deliveries, the
stored command stays the value computed from the arguments at startup, and
every published command equals that same value. -/
theorem cmdMsg_constant_through_run (args : List String) (es : List Event) :
    (run args es).cmdMsg = getCommandMsg args ∧
    ∀ t ∈ (run args es).published, t = getCommandMsg args := by
  have h := foldl_step_frame es (initState args)
  refine ⟨h.1, fun t ht => ?_⟩
  rcases h.2 t ht with h2 | h2
  · exact absurd h2 (List.not_mem_nil t)
  · exact h2

theorem cmdMsg_constant_through_run_witness :
    (run ["p"] [Event.tick]).cmdMsg = getCommandMsg ["p"] ∧
    (⟨0, 0⟩ : Twist) = getCommandMsg ["p"] :=
  ⟨(cmdMsg_constant_through_run ["p"] [Event.tick]).1,
   (cmdMsg_constant_through_run ["p"] [Event.tick]).2 ⟨0, 0⟩ (by decide)⟩

/-- C9: the two-step max/min clamp is idempotent for both the linear-speed
bound `[-3, 3]` and the angular-rate bound `[-1, 1]`. -/
theorem clampCmd_idempotent_bounds (v : ℚ) :
    clampCmd (-MaxVelocityCommand) MaxVelocityCommand
        (clampCmd (-MaxVelocityCommand) MaxVelocityCommand v) =
      clampCmd (-MaxVelocityCommand) MaxVelocityCommand v ∧
    clampCmd (-MaxTurnRateCommand) MaxTurnRateCommand
        (clampCmd (-MaxTurnRateCommand) MaxTurnRateCommand v) =
      clampCmd (-MaxTurnRateCommand) MaxTurnRateCommand v :=
  ⟨clampCmd_idem_of_le (-MaxVelocityCommand) MaxVelocityCommand v
      (by norm_num [MaxVelocityCommand]),
   clampCmd_idem_of_le (-MaxTurnRateCommand) MaxTurnRateCommand v
      (by norm_num [MaxTurnRateCommand])⟩

/-- C10: the parse follows the accept-prefix policy: when the argument at
index 1 has a valid numeric prefix (trailing non-numeric characters
allowed) whose value is within float range, the parse succeeds and
`linear.x` is the clamped prefix value, not the default. -/
theorem getCommandMsg_accepts_numeric_prefix (args : List String) (s : String)
    (f : FloatScan) (hs : args.get? 1 = some s)
    (hscan : scanFloat s.data = some f)
    (hrange : -FloatMax ≤ floatVal f ∧ floatVal f ≤ FloatMax) :
    (getCommandMsg args).linear_x =
      clampCmd (-MaxVelocityCommand) MaxVelocityCommand (floatVal f) := by
  have hstof : stof s = some (floatVal f) := by
    unfold stof strtofNum
    rw [hscan]
    simp only [Option.map_some']
    have hn : ¬(floatVal f < -FloatMax ∨ FloatMax < floatVal f) := by
      rw [not_or, not_lt, not_lt]
      exact hrange
    rw [if_neg hn]
  rw [getCommandMsg_eq_opts, hs]
  simp [linFromOpt, hstof]

theorem getCommandMsg_accepts_numeric_prefix_witness :
    (getCommandMsg ["p", "3.0abc"]).linear_x =
      clampCmd (-MaxVelocityCommand) MaxVelocityCommand
        (floatVal ⟨false, ['3'], ['0'], 0, ['a', 'b', 'c']⟩) :=
  getCommandMsg_accepts_numeric_prefix ["p", "3.0abc"] "3.0abc"
    ⟨false, ['3'], ['0'], 0, ['a', 'b', 'c']⟩ rfl (by decide) (by
      have hv : floatVal ⟨false, ['3'], ['0'], 0, ['a', 'b', 'c']⟩ = 3 := by
        simp only [floatVal, applyExp]
        norm_num [show digitsToNat ['3'] = 3 from rfl, show digitsToNat ['0'] = 0 from rfl]
      rw [hv]
      norm_num [FloatMax])

end J5
